import Mathlib

/-!
Verification of the hyperliquid-analytics block pipeline.

Shallow embedding of the core logic of `src/backend/server.js` and the
aggregation fallback of `src/frontend/src/App.tsx`:
JSON payload normalization (`parseBlockData`), the recent-blocks merge
(`/api/blocks/recent`), the stats fold (`/api/stats`), the single-block
lookup (`/api/blocks/:blockNumber`), the price fetch (`getHypePrice`) and
the frontend price-history window and degraded stats fallback.

Modelling conventions: JavaScript numbers used as integer counters are
modelled as `Int` (they are exact below 2^53 and all claims concern the
integer regime); `BigInt` gas values are modelled as `Nat`; JSON structured
values are modelled by the inductive `JVal`; a payload whose `JSON.parse`
throws is modelled as `none`.
-/

namespace HL

/-- A JSON value, as produced by `JSON.parse`.  Numbers are modelled as
integers (all numeric fields of block records are integers). Object keys
are assumed unique, as in the stream payloads. -/
inductive JVal where
  | null
  | bool (b : Bool)
  | num (n : Int)
  | str (s : String)
  | arr (elems : List JVal)
  | obj (fields : List (String × JVal))

/-- JavaScript property access `v[k]` on a parsed JSON value: a lookup on an
object, `undefined` (here `none`) on an array, string, number or boolean.
Access on `null` throws in JavaScript; `parseBlockData` handles that case
separately (its `catch` returns `[]`). -/
def getField (v : JVal) (k : String) : Option JVal :=
  match v with
  | JVal.obj fields => fields.lookup k
  | _ => none

/-- Embedding of `parseBlockData` (src/backend/server.js lines 57-82).
The input is the result of decoding the stored payload: `none` when the
payload was a string and `JSON.parse` threw (the `catch` returns `[]`).
`some JVal.null` also falls into the `catch`: `data.blocks` on `null`
throws a TypeError, which the same handler turns into `[]`.
Otherwise, in priority order: an object whose `blocks` field is an array
returns that array (a non-array `blocks` field fails both the truthiness
and the `Array.isArray` test); a bare array is returned as is; an object
with a `blockNumber` field (`!== undefined`) is wrapped in a singleton;
anything else gives `[]`.  The function is total: no error escapes. -/
def parseBlockData (d : Option JVal) : List JVal :=
  match d with
  | none => []
  | some JVal.null => []
  | some v =>
    match getField v "blocks" with
    | some (JVal.arr bs) => bs
    | _ =>
      match v with
      | JVal.arr xs => xs
      | _ => if (getField v "blockNumber").isSome then [v] else []

/-- A canonical block record as consumed by the merge and stats folds.
Fields other than `blockNumber` are `Option`-valued: `none` models a field
missing from the JSON record (JavaScript `undefined`).  `gasUsed` is the
value of the decimal string stored in the record, summed via `BigInt`,
hence a `Nat`. -/
structure Block where
  blockNumber : Int
  timestamp : Option Int
  hyperCoreActions : Option Int
  hyperEVMTxns : Option Int
  crossLayerCalls : Option Int
  gasUsed : Option Nat
deriving DecidableEq, Repr

/-- Insert a block into a list sorted descending by `blockNumber`, before
the first element it compares greater-or-equal to.  This realizes the
stable descending sort `allBlocks.sort((a, b) => b.blockNumber - a.blockNumber)`
of server.js line 132: JavaScript `Array.prototype.sort` is stable, and a
stable sort by a key is insertion of each element before the first
smaller-or-equal key when elements are inserted right-to-left. -/
def insertDesc (a : Block) : List Block → List Block
  | [] => [a]
  | b :: l => if b.blockNumber ≤ a.blockNumber then a :: b :: l else b :: insertDesc a l

/-- Stable sort, descending by `blockNumber`. -/
def sortDesc : List Block → List Block
  | [] => []
  | a :: l => insertDesc a (sortDesc l)

/-- Embedding of the `/api/blocks/recent` merge (server.js lines 115-135):
each storage row's payload is normalized to a list of records, the rows
(already ordered most-recent range first by the storage query) are
flattened in order, the flat list is sorted descending by `blockNumber`
with a stable sort, and the first 20 records are returned.  The rows are
given here already normalized (each inner list is `parseBlockData` of one
row's `data`, with the numeric fields projected out). -/
def mergeRecent (rows : List (List Block)) : List Block :=
  (sortDesc rows.flatten).take 20

/-- Running totals of the `/api/stats` fold (server.js lines 211-215),
initialized to zero (`BigInt(0)` for gas). -/
structure AggTotals where
  totalTransactions : Int
  totalCrossLayerCalls : Int
  totalGasUsed : Nat
  totalHyperCoreActions : Int
  processedBlocks : Nat
deriving DecidableEq, Repr

/-- One step of the `/api/stats` fold (server.js lines 219-227): a record
enters the fold only when `block.hyperEVMTxns > 0` (a missing field is
`undefined`, and `undefined > 0` is false, hence `Option.getD 0`); inside,
each missing numeric field defaults to zero via `|| 0`, and the gas string
defaults to `BigInt(0)`. -/
def aggStep (acc : AggTotals) (b : Block) : AggTotals :=
  if 0 < b.hyperEVMTxns.getD 0 then
    { totalTransactions := acc.totalTransactions + b.hyperEVMTxns.getD 0
      totalCrossLayerCalls := acc.totalCrossLayerCalls + b.crossLayerCalls.getD 0
      totalGasUsed := acc.totalGasUsed + b.gasUsed.getD 0
      totalHyperCoreActions := acc.totalHyperCoreActions + b.hyperCoreActions.getD 0
      processedBlocks := acc.processedBlocks + 1 }
  else acc

/-- The `/api/stats` per-record fold (server.js lines 217-228): every row is
normalized and every resulting record folded in row order. -/
def aggregate (rows : List (List Block)) : AggTotals :=
  rows.flatten.foldl aggStep ⟨0, 0, 0, 0, 0⟩

/-- Two-digit zero padding of a value below 100, for the fractional part of
a fixed-point rendering. -/
def pad2 (k : Nat) : String :=
  if k < 10 then "0" ++ toString k else toString k

/-- Embedding of JavaScript `x.toFixed(2)`: the integer n for which n/100 is
closest to x, ties to the larger n (ECMAScript Number.prototype.toFixed),
i.e. the floor of 100x + 1/2, rendered with exactly two decimals.
The double-precision representation of x is idealized as the exact
rational: all quantities reaching this formatter in the code are ratios of
integer counters. -/
def toFixed2 (x : ℚ) : String :=
  let n : Int := ⌊x * 100 + 1 / 2⌋
  let sign := if n < 0 then "-" else ""
  sign ++ toString (n.natAbs / 100) ++ "." ++ pad2 (n.natAbs % 100)

/-- The response body of `/api/stats` (server.js lines 230-241). The
`totalRecords`/`firstBlock`/`lastBlock` triple comes from the separate
count/min/max metadata query, not from the fold. -/
structure StatsResponse where
  totalRecords : Int
  firstBlock : Int
  lastBlock : Int
  totalTransactions : Int
  totalCrossLayerCalls : Int
  totalHyperCoreActions : Int
  totalGasUsed : Nat
  processedBlocks : Nat
  crossLayerPercentage : String
deriving DecidableEq, Repr

/-- The count/min/max row-metadata aggregate (server.js lines 200-204),
taken as an oracle input. -/
structure RowMeta where
  totalRecords : Int
  firstBlock : Int
  lastBlock : Int

/-- Assembly of the `/api/stats` response (server.js lines 230-241):
the fold totals plus the guarded percentage
`totalTransactions > 0 ? ((totalCrossLayerCalls / totalTransactions) * 100).toFixed(2) : '0'`. -/
def statsEndpoint (meta : RowMeta) (rows : List (List Block)) : StatsResponse :=
  let t := aggregate rows
  { totalRecords := meta.totalRecords
    firstBlock := meta.firstBlock
    lastBlock := meta.lastBlock
    totalTransactions := t.totalTransactions
    totalCrossLayerCalls := t.totalCrossLayerCalls
    totalHyperCoreActions := t.totalHyperCoreActions
    totalGasUsed := t.totalGasUsed
    processedBlocks := t.processedBlocks
    crossLayerPercentage :=
      if 0 < t.totalTransactions then
        toFixed2 (((t.totalCrossLayerCalls : ℚ) / (t.totalTransactions : ℚ)) * 100)
      else "0" }

/-- A block record as typed by the frontend (`interface BlockData`,
App.tsx lines 29-65): the numeric fields are required there, so they are
not optional here.  `gasUsed` is a decimal string parsed with `BigInt`,
modelled by its value. -/
structure BlockData where
  blockNumber : Int
  timestamp : Int
  hyperCoreActions : Int
  hyperEVMTxns : Int
  crossLayerCalls : Int
  gasUsed : Nat
deriving DecidableEq, Repr

/-- The view of a frontend record as a stored record with all fields
present, for comparing the two stats folds. -/
def toBlock (b : BlockData) : Block :=
  ⟨b.blockNumber, some b.timestamp, some b.hyperCoreActions,
    some b.hyperEVMTxns, some b.crossLayerCalls, some b.gasUsed⟩

/-- The frontend `Stats` interface (App.tsx lines 74-81). -/
structure FrontStats where
  totalRecords : Int
  firstBlock : Int
  lastBlock : Int
  totalTransactions : Int
  totalCrossLayerCalls : Int
  totalGasUsed : Nat
deriving DecidableEq, Repr

/-- The reducer of the degraded in-memory stats fallback (App.tsx lines
227-234), with `recentBlocks.length` passed in as the constant
`totalRecords`.  There is no filter on `hyperEVMTxns`.
`Math.min(acc.firstBlock || Infinity, bn)` becomes a conditional on
`firstBlock = 0` (zero is the only falsy integer); likewise
`Math.max(acc.lastBlock || 0, bn)`; gas is added as `BigInt` from the
string accumulator initialized to the string of zero. -/
def frontStep (totalRecords : Int) (acc : FrontStats) (b : BlockData) : FrontStats :=
  { totalRecords := totalRecords
    firstBlock := if acc.firstBlock = 0 then b.blockNumber
      else min acc.firstBlock b.blockNumber
    lastBlock := max (if acc.lastBlock = 0 then 0 else acc.lastBlock) b.blockNumber
    totalTransactions := acc.totalTransactions + b.hyperEVMTxns
    totalCrossLayerCalls := acc.totalCrossLayerCalls + b.crossLayerCalls
    totalGasUsed := acc.totalGasUsed + b.gasUsed }

/-- Embedding of the degraded in-memory stats fallback (App.tsx lines
227-241): `recentBlocks.reduce(...)` over all held records with an
all-zero initial accumulator. -/
def totalStatsFallback (recentBlocks : List BlockData) : FrontStats :=
  recentBlocks.foldl (frontStep (recentBlocks.length : Int)) ⟨0, 0, 0, 0, 0, 0⟩

/-- The failure modes of the oracle price read (server.js lines 92-95):
a network error from the provider, a decode error (including a
`BigNumber.toNumber()` overflow), or an oracle revert. -/
inductive OracleErr where
  | networkError
  | decodeError
  | revert
deriving DecidableEq, Repr

/-- The statically configured fallback price of `getHypePrice`
(server.js line 110). -/
def FALLBACK_HYPE_PRICE : ℚ := 48

/-- The largest integer `BigNumber.toNumber()` converts without throwing
(JavaScript `Number.MAX_SAFE_INTEGER`, 2^53 - 1). -/
def MAX_SAFE_INTEGER : Nat := 9007199254740991

/-- Embedding of `getHypePrice` (server.js lines 86-112).  The oracle call
is an oracle: `Except.error` covers every failure of the `provider.call`
or of decoding its result; the whole body is one `try`, so any failure —
including a `toNumber()` overflow on a price beyond 2^53 — lands in the
`catch`, which returns the fallback price 48.0.  On success the raw
8-decimal fixed-point price is divided by 10^6 (the asset has
szDecimals = 2); the double division is idealized as exact rational
division.  The function is total: no caller ever observes an exception. -/
def getHypePrice (oracleResult : Except OracleErr Int) : ℚ :=
  match oracleResult with
  | Except.error _ => FALLBACK_HYPE_PRICE
  | Except.ok priceRaw =>
    if priceRaw.natAbs ≤ MAX_SAFE_INTEGER then (priceRaw : ℚ) / 1000000
    else FALLBACK_HYPE_PRICE

/-- One point of the frontend price history (App.tsx line 95): a formatted
time string and the sampled price. -/
structure PriceSample where
  time : String
  price : ℚ
deriving DecidableEq, Repr

/-- Embedding of the price-history update (App.tsx lines 104-107):
`[...prev, {time, price}].slice(-30)` — append the new sample, then keep
the last 30 entries (`slice(-30)` returns the whole array when it is
shorter). -/
def appendSample (prev : List PriceSample) (s : PriceSample) : List PriceSample :=
  (prev ++ [s]).drop ((prev ++ [s]).length - 30)

/-- The longest leading run of decimal digits of a character list. -/
def leadDigits : List Char → List Char
  | [] => []
  | c :: cs => if c.isDigit then c :: leadDigits cs else []

/-- Value of a list of decimal digits. -/
def digitsToNat (cs : List Char) : Nat :=
  cs.foldl (fun a c => a * 10 + (c.toNat - 48)) 0

/-- Embedding of JavaScript `parseInt(s)` in base 10: skip leading
whitespace, read an optional sign, then the longest prefix of decimal
digits; `none` models `NaN` (no digits).  The hexadecimal `0x` prefix of
the builtin is not modelled: no input of interest carries it. -/
def jsParseInt (s : String) : Option Int :=
  let cs := s.data.dropWhile (fun c => c == ' ' || c == '\t' || c == '\n' || c == '\r')
  match cs with
  | '-' :: rest =>
    match leadDigits rest with
    | [] => none
    | ds => some (-(digitsToNat ds : Int))
  | '+' :: rest =>
    match leadDigits rest with
    | [] => none
    | ds => some (digitsToNat ds : Int)
  | _ =>
    match leadDigits cs with
    | [] => none
    | ds => some (digitsToNat ds : Int)

/-- A block as returned by the chain-read collaborator `provider.getBlock`
(server.js line 163): `transactions` is the list of transaction hashes and
`gasUsed` a `BigNumber`, re-read by the handler through
`parseInt(gasUsed.toString())` (idealized as the exact value). -/
structure ChainBlock where
  number : Int
  timestamp : Int
  transactions : List String
  gasUsed : Nat
deriving DecidableEq, Repr

/-- The `metrics` object of the synthesized live-chain fallback response
(server.js lines 173-178). -/
structure FallbackMetrics where
  avgGasPerTx : Nat
  crossLayerRatio : String
  uniqueUserCount : Nat
deriving DecidableEq, Repr

/-- The synthesized live-chain fallback response body
(server.js lines 165-179). -/
structure FallbackBlock where
  blockNumber : Int
  timestamp : Int
  hyperCoreActions : Nat
  hyperEVMTxns : Nat
  crossLayerCalls : Nat
  gasUsed : Nat
  uniqueUsers : List String
  metrics : FallbackMetrics
deriving DecidableEq, Repr

/-- Embedding of the response synthesized from a live chain block
(server.js lines 165-179): cross-layer and core-action fields are zeroed
(they only exist in the stream), and `metrics.avgGasPerTx` is the guarded
division `transactions.length > 0 ? Math.floor(gasUsed / transactions.length) : 0`
(floor of an exact integer ratio, hence `Nat` division). -/
def synthesizeFallbackBlock (cb : ChainBlock) : FallbackBlock :=
  { blockNumber := cb.number
    timestamp := cb.timestamp
    hyperCoreActions := 0
    hyperEVMTxns := cb.transactions.length
    crossLayerCalls := 0
    gasUsed := cb.gasUsed
    uniqueUsers := []
    metrics :=
      { avgGasPerTx :=
          if 0 < cb.transactions.length then cb.gasUsed / cb.transactions.length else 0
        crossLayerRatio := "0"
        uniqueUserCount := 0 } }

/-- A call to an external collaborator made by the single-block handler, in
order.  `none` as the block-number argument models a `NaN` produced by
`parseInt` on non-numeric input: the code passes it on unchanged. -/
inductive CollabCall where
  | storageRangeQuery (blockNum : Option Int)
  | chainGetBlock (blockNum : Option Int)
deriving DecidableEq, Repr

/-- The possible responses of `/api/blocks/:blockNumber` (server.js lines
143-194).  There is no invalid-input response: the handler has no input
validation branch. -/
inductive LookupResponse where
  | storedBlock (b : JVal)
  | chainFallback (b : FallbackBlock)
  | blockNotFound
  | blockNotFoundInDb
  | dbError

/-- JavaScript strict equality `b.blockNumber === blockNum` between a JSON
record field and the parsed route parameter: true only when the field is a
number equal to `blockNum`; always false when `blockNum` is `NaN` (`none`)
or the field is missing or not a number. -/
def blockNumberMatches (b : JVal) (n : Option Int) : Bool :=
  match getField b "blockNumber", n with
  | some (JVal.num m), some k => m == k
  | _, _ => false

/-- Embedding of the `/api/blocks/:blockNumber` handler (server.js lines
143-194), with the storage range query and the chain read as oracles and
the calls it issues recorded in order.  The route parameter is parsed with
`parseInt` and passed straight to the storage range query — there is no
validation branch, so the query is issued even when parsing yields `NaN`.
A storage failure is the outer catch (500); an empty row set is the 404
"Block not found in database"; otherwise the first row is normalized and
scanned with strict equality, a miss falling back to `provider.getBlock`,
whose `null` result or thrown error is the 404 "Block not found". -/
def getBlockEndpoint (input : String)
    (storage : Option Int → Except Unit (List (Option JVal)))
    (chain : Option Int → Except Unit (Option ChainBlock)) :
    List CollabCall × LookupResponse :=
  let blockNum := jsParseInt input
  match storage blockNum with
  | Except.error _ => ([CollabCall.storageRangeQuery blockNum], LookupResponse.dbError)
  | Except.ok [] => ([CollabCall.storageRangeQuery blockNum], LookupResponse.blockNotFoundInDb)
  | Except.ok (rowData :: _) =>
    match (parseBlockData rowData).find? (fun b => blockNumberMatches b blockNum) with
    | some b => ([CollabCall.storageRangeQuery blockNum], LookupResponse.storedBlock b)
    | none =>
      match chain blockNum with
      | Except.error _ =>
        ([CollabCall.storageRangeQuery blockNum, CollabCall.chainGetBlock blockNum],
          LookupResponse.blockNotFound)
      | Except.ok none =>
        ([CollabCall.storageRangeQuery blockNum, CollabCall.chainGetBlock blockNum],
          LookupResponse.blockNotFound)
      | Except.ok (some cb) =>
        ([CollabCall.storageRangeQuery blockNum, CollabCall.chainGetBlock blockNum],
          LookupResponse.chainFallback (synthesizeFallbackBlock cb))

/-! Helper lemmas about the stable descending sort. -/

theorem insertDesc_perm (a : Block) (l : List Block) :
    List.Perm (insertDesc a l) (a :: l) := by
  induction l with
  | nil => rfl
  | cons b l ih =>
    rw [insertDesc]
    by_cases h : b.blockNumber ≤ a.blockNumber
    · rw [if_pos h]
    · rw [if_neg h]
      exact (ih.cons b).trans (List.Perm.swap a b l)

theorem mem_insertDesc {a c : Block} {l : List Block} (h : c ∈ insertDesc a l) :
    c = a ∨ c ∈ l := by
  have := (insertDesc_perm a l).mem_iff.mp h
  simpa using this

theorem pairwise_insertDesc (a : Block) (l : List Block)
    (h : l.Pairwise fun x y => y.blockNumber ≤ x.blockNumber) :
    (insertDesc a l).Pairwise fun x y => y.blockNumber ≤ x.blockNumber := by
  induction l with
  | nil => simp [insertDesc]
  | cons b l ih =>
    rw [insertDesc]
    rcases List.pairwise_cons.mp h with ⟨hb, hl⟩
    by_cases hba : b.blockNumber ≤ a.blockNumber
    · rw [if_pos hba]
      refine List.pairwise_cons.mpr ⟨?_, h⟩
      intro c hc
      rcases List.mem_cons.mp hc with rfl | hc
      · exact hba
      · exact le_trans (hb c hc) hba
    · rw [if_neg hba]
      refine List.pairwise_cons.mpr ⟨?_, ih hl⟩
      intro c hc
      rcases mem_insertDesc hc with rfl | hc
      · exact le_of_lt (lt_of_not_le hba)
      · exact hb c hc

theorem sortDesc_perm (l : List Block) : List.Perm (sortDesc l) l := by
  induction l with
  | nil => rfl
  | cons a l ih => exact (insertDesc_perm a (sortDesc l)).trans (ih.cons a)

theorem sortDesc_pairwise (l : List Block) :
    (sortDesc l).Pairwise fun x y => y.blockNumber ≤ x.blockNumber := by
  induction l with
  | nil => exact List.Pairwise.nil
  | cons a l ih => exact pairwise_insertDesc a (sortDesc l) ih

/-- Row R2 (most recent range, processed first): its version of block 105. -/
def rec105v2 : Block := ⟨105, some 2, none, some 9, some 3, some 90⟩

/-- Row R2: block 110. -/
def rec110 : Block := ⟨110, some 2, none, some 4, some 1, some 40⟩

/-- Row R1 (older range, processed second): block 100. -/
def rec100 : Block := ⟨100, some 1, none, some 5, some 0, some 50⟩

/-- Row R1: block 101. -/
def rec101 : Block := ⟨101, some 1, none, some 6, some 2, some 60⟩

/-- Row R1: its version of block 105, different fields from R2's. -/
def rec105v1 : Block := ⟨105, some 1, none, some 7, some 1, some 70⟩

/-- C1 counterexample: the merge performs no deduplication.  With row R2
(processed first) and row R1 both containing a record for block 105, the
merged result of `/api/blocks/recent` holds two records for block number
105 — not "exactly one record for that block number" as claimed: the code
sorts and truncates `allBlocks` but never removes duplicates. -/
theorem mergeRecent_keeps_duplicate_blockNumbers :
    ((mergeRecent [[rec105v2, rec110], [rec100, rec101, rec105v1]]).filter
        (fun b => b.blockNumber == 105)).length = 2 ∧
    mergeRecent [[rec105v2, rec110], [rec100, rec101, rec105v1]] =
      [rec110, rec105v2, rec105v1, rec101, rec100] := by
  constructor
  · rfl
  · rfl

/-- C1 (amended): the merged recent-blocks result is sorted descending by
`blockNumber` (non-strictly: duplicate block numbers all remain, the
record from the earlier-processed, more recently stored row first among
equals, by stability), contains exactly the records of all normalized rows
(no deduplication) whenever at most 20 records are present, and is
truncated to the first 20 records. -/
theorem mergeRecent_amended (rows : List (List Block)) :
    (mergeRecent rows).Pairwise (fun a b => b.blockNumber ≤ a.blockNumber) ∧
    (mergeRecent rows).length = min 20 rows.flatten.length ∧
    (rows.flatten.length ≤ 20 → (mergeRecent rows).Perm rows.flatten) := by
  refine ⟨?_, ?_, ?_⟩
  · exact (sortDesc_pairwise rows.flatten).sublist (List.take_sublist 20 _)
  · rw [mergeRecent, List.length_take, (sortDesc_perm rows.flatten).length_eq]
  · intro h
    rw [mergeRecent, List.take_of_length_le]
    · exact sortDesc_perm rows.flatten
    · rw [(sortDesc_perm rows.flatten).length_eq]; exact h

/-- Concrete instance of the amended C1 theorem on the two-row scenario:
the merge of five records (at most 20) is a permutation of the
concatenated rows, duplicate block number included. -/
theorem mergeRecent_amended_witness :
    [[rec105v2, rec110], [rec100, rec101, rec105v1]].flatten.length ≤ 20 ∧
    (mergeRecent [[rec105v2, rec110], [rec100, rec101, rec105v1]]).Perm
      [[rec105v2, rec110], [rec100, rec101, rec105v1]].flatten :=
  ⟨by decide,
    (mergeRecent_amended [[rec105v2, rec110], [rec100, rec101, rec105v1]]).2.2 (by decide)⟩

/-- C2: `parseBlockData` dispatches by structural inspection in priority
order and never throws.  A failed textual decode (`none`) gives `[]`; a
`null` payload (whose property access throws inside the `try`) gives `[]`;
an object whose `blocks` field is an array returns that array, before any
other test; a bare array is returned as is; any other non-null value with
a `blockNumber` field is wrapped in a singleton; everything else gives
`[]`.  Totality of the definition is the no-throw guarantee. -/
theorem parseBlockData_cases :
    (parseBlockData none = []) ∧
    (parseBlockData (some JVal.null) = []) ∧
    (∀ v bs, getField v "blocks" = some (JVal.arr bs) → parseBlockData (some v) = bs) ∧
    (∀ xs, parseBlockData (some (JVal.arr xs)) = xs) ∧
    (∀ v, v ≠ JVal.null → (∀ bs, getField v "blocks" ≠ some (JVal.arr bs)) →
      (∀ xs, v ≠ JVal.arr xs) → (getField v "blockNumber").isSome →
      parseBlockData (some v) = [v]) ∧
    (∀ v, v ≠ JVal.null → (∀ bs, getField v "blocks" ≠ some (JVal.arr bs)) →
      (∀ xs, v ≠ JVal.arr xs) → getField v "blockNumber" = none →
      parseBlockData (some v) = []) := by
  refine ⟨rfl, rfl, ?_, fun xs => rfl, ?_, ?_⟩
  · intro v bs h
    cases v with
    | null => simp [getField] at h
    | bool b => simp [getField] at h
    | num n => simp [getField] at h
    | str s => simp [getField] at h
    | arr xs => simp [getField] at h
    | obj fields => simp [parseBlockData, h]
  · intro v hnull hblocks harr hnum
    cases v with
    | null => exact absurd rfl hnull
    | bool b => simp [getField] at hnum
    | num n => simp [getField] at hnum
    | str s => simp [getField] at hnum
    | arr xs => exact absurd rfl (harr xs)
    | obj fields =>
      rcases hw : getField (JVal.obj fields) "blocks" with _ | w
      · simp [parseBlockData, hw, hnum]
      · cases w with
        | arr bs => exact absurd hw (hblocks bs)
        | null => simp [parseBlockData, hw, hnum]
        | bool b => simp [parseBlockData, hw, hnum]
        | num n => simp [parseBlockData, hw, hnum]
        | str s => simp [parseBlockData, hw, hnum]
        | obj fs => simp [parseBlockData, hw, hnum]
  · intro v hnull hblocks harr hnum
    cases v with
    | null => exact absurd rfl hnull
    | bool b => rfl
    | num n => rfl
    | str s => rfl
    | arr xs => exact absurd rfl (harr xs)
    | obj fields =>
      rcases hw : getField (JVal.obj fields) "blocks" with _ | w
      · simp [parseBlockData, hw, hnum]
      · cases w with
        | arr bs => exact absurd hw (hblocks bs)
        | null => simp [parseBlockData, hw, hnum]
        | bool b => simp [parseBlockData, hw, hnum]
        | num n => simp [parseBlockData, hw, hnum]
        | str s => simp [parseBlockData, hw, hnum]
        | obj fs => simp [parseBlockData, hw, hnum]

/-- A wrapper payload with a `blocks` array field, for instantiating the
C2 theorem. -/
def sampleWrapperPayload : JVal :=
  JVal.obj [("blocks", JVal.arr [JVal.num 7]), ("blockNumber", JVal.num 9)]

/-- Concrete instance of C2: a wrapper object carrying both a `blocks`
array and a `blockNumber` field returns the array — the `blocks` test has
priority. -/
theorem parseBlockData_cases_witness :
    getField sampleWrapperPayload "blocks" = some (JVal.arr [JVal.num 7]) ∧
    parseBlockData (some sampleWrapperPayload) = [JVal.num 7] :=
  ⟨rfl, parseBlockData_cases.2.2.1 sampleWrapperPayload [JVal.num 7] rfl⟩

/-! Helper lemmas about the stats fold. -/

/-- Characterization of the stats fold from any starting accumulator: each
total is the start value plus the sum of the corresponding field (missing
fields as zero) over exactly the records with a positive `hyperEVMTxns`,
and `processedBlocks` advances by the number of such records. -/
theorem foldl_aggStep_eq (l : List Block) (acc : AggTotals) :
    l.foldl aggStep acc =
      ⟨acc.totalTransactions +
          ((l.filter fun b => 0 < b.hyperEVMTxns.getD 0).map
            fun b => b.hyperEVMTxns.getD 0).sum,
        acc.totalCrossLayerCalls +
          ((l.filter fun b => 0 < b.hyperEVMTxns.getD 0).map
            fun b => b.crossLayerCalls.getD 0).sum,
        acc.totalGasUsed +
          ((l.filter fun b => 0 < b.hyperEVMTxns.getD 0).map
            fun b => b.gasUsed.getD 0).sum,
        acc.totalHyperCoreActions +
          ((l.filter fun b => 0 < b.hyperEVMTxns.getD 0).map
            fun b => b.hyperCoreActions.getD 0).sum,
        acc.processedBlocks + (l.filter fun b => 0 < b.hyperEVMTxns.getD 0).length⟩ := by
  induction l generalizing acc with
  | nil => simp
  | cons b l ih =>
    by_cases h : 0 < b.hyperEVMTxns.getD 0
    · rw [List.foldl_cons, ih]
      simp [aggStep, List.filter_cons, h]
      omega
    · rw [List.foldl_cons, ih]
      simp [aggStep, List.filter_cons, h]

/-- C3: the `/api/stats` fold accumulates `totalTransactions`,
`totalCrossLayerCalls`, `totalHyperCoreActions`, `totalGasUsed` and
`processedBlocks` over exactly the normalized records whose `hyperEVMTxns`
is strictly positive; a record with zero (or missing) execution-layer
transactions contributes to no total and does not advance
`processedBlocks`, and within an included record each missing numeric
field counts as zero. -/
theorem aggregate_filters_zero_tx (rows : List (List Block)) :
    aggregate rows =
      ⟨((rows.flatten.filter fun b => 0 < b.hyperEVMTxns.getD 0).map
          fun b => b.hyperEVMTxns.getD 0).sum,
        ((rows.flatten.filter fun b => 0 < b.hyperEVMTxns.getD 0).map
          fun b => b.crossLayerCalls.getD 0).sum,
        ((rows.flatten.filter fun b => 0 < b.hyperEVMTxns.getD 0).map
          fun b => b.gasUsed.getD 0).sum,
        ((rows.flatten.filter fun b => 0 < b.hyperEVMTxns.getD 0).map
          fun b => b.hyperCoreActions.getD 0).sum,
        (rows.flatten.filter fun b => 0 < b.hyperEVMTxns.getD 0).length⟩ := by
  rw [aggregate, foldl_aggStep_eq]
  simp

/-- A record with one transaction and a gas value of 2^64, twice the range
of a 64-bit integer away from zero once doubled. -/
def bigGasBlock1 : Block := ⟨1, none, none, some 1, none, some (2 ^ 64)⟩

/-- A second record with one transaction and a gas value of 2^64. -/
def bigGasBlock2 : Block := ⟨2, none, none, some 1, none, some (2 ^ 64)⟩

/-- A record carrying a gas value of 2^128. -/
def hugeGasBlock : Block := ⟨3, none, none, some 1, none, some (2 ^ 128)⟩

/-- C6: gas accumulation is exact arbitrary-precision integer arithmetic —
in the model a `Nat` sum with no reduction modulo any power of two: the
total gas is literally the sum of the included records' gas values; two
records of 2^64 gas sum to exactly 2^65; and a value of 2^128 is carried
through exactly. -/
theorem gasUsed_exact_sum :
    (∀ rows : List (List Block),
      (aggregate rows).totalGasUsed =
        ((rows.flatten.filter fun b => 0 < b.hyperEVMTxns.getD 0).map
          fun b => b.gasUsed.getD 0).sum) ∧
    (aggregate [[bigGasBlock1, bigGasBlock2]]).totalGasUsed = 2 ^ 65 ∧
    (aggregate [[hugeGasBlock]]).totalGasUsed = 2 ^ 128 := by
  refine ⟨?_, by decide, by decide⟩
  intro rows
  rw [aggregate, foldl_aggStep_eq]
  simp

/-- C9: the `crossLayerPercentage` field of the `/api/stats` response is
the ratio of cross-layer calls to transactions times 100, formatted to two
decimals, whenever `totalTransactions` is positive, and is the bare string
"0" when `totalTransactions` is zero; the aggregate of an empty row set
yields zero transactions, the string "0", and a zero gas total. -/
theorem crossLayerPercentage_spec :
    (∀ (m : RowMeta) (rows : List (List Block)),
      0 < (statsEndpoint m rows).totalTransactions →
      (statsEndpoint m rows).crossLayerPercentage =
        toFixed2 ((((statsEndpoint m rows).totalCrossLayerCalls : ℚ) /
          ((statsEndpoint m rows).totalTransactions : ℚ)) * 100)) ∧
    (∀ (m : RowMeta) (rows : List (List Block)),
      (statsEndpoint m rows).totalTransactions = 0 →
      (statsEndpoint m rows).crossLayerPercentage = "0") ∧
    (∀ m : RowMeta,
      (statsEndpoint m []).totalTransactions = 0 ∧
      (statsEndpoint m []).crossLayerPercentage = "0" ∧
      (statsEndpoint m []).totalGasUsed = 0) := by
  refine ⟨?_, ?_, fun m => ⟨rfl, rfl, rfl⟩⟩
  · intro m rows h
    simp only [statsEndpoint] at h ⊢
    rw [if_pos h]
  · intro m rows h
    simp only [statsEndpoint] at h ⊢
    rw [h]
    simp

/-- A single row with one record of 3 transactions and 1 cross-layer
call, for instantiating the C9 theorem. -/
def pctWitnessRows : List (List Block) := [[⟨1, none, none, some 3, some 1, some 10⟩]]

/-- Concrete instance of C9: with 1 cross-layer call out of 3 transactions,
the endpoint reports "33.33". -/
theorem crossLayerPercentage_spec_witness :
    0 < (statsEndpoint ⟨1, 1, 1⟩ pctWitnessRows).totalTransactions ∧
    (statsEndpoint ⟨1, 1, 1⟩ pctWitnessRows).crossLayerPercentage = "33.33" := by
  refine ⟨by decide, ?_⟩
  rw [crossLayerPercentage_spec.1 ⟨1, 1, 1⟩ pctWitnessRows (by decide)]
  have hc : (statsEndpoint ⟨1, 1, 1⟩ pctWitnessRows).totalCrossLayerCalls = 1 := by decide
  have ht : (statsEndpoint ⟨1, 1, 1⟩ pctWitnessRows).totalTransactions = 3 := by decide
  rw [hc, ht]
  simp only [toFixed2]
  norm_num
  rfl

/-! Helper lemma for the frontend fallback fold. -/

/-- The three summed fields of the frontend reducer from any starting
accumulator: plain sums over all records, with no activity filter. -/
theorem foldl_frontStep_eq (l : List BlockData) (n : Int) (acc : FrontStats) :
    ((l.foldl (frontStep n) acc).totalTransactions =
      acc.totalTransactions + (l.map fun b => b.hyperEVMTxns).sum) ∧
    ((l.foldl (frontStep n) acc).totalCrossLayerCalls =
      acc.totalCrossLayerCalls + (l.map fun b => b.crossLayerCalls).sum) ∧
    ((l.foldl (frontStep n) acc).totalGasUsed =
      acc.totalGasUsed + (l.map fun b => b.gasUsed).sum) := by
  induction l generalizing acc with
  | nil => simp
  | cons b l ih =>
    simp only [List.foldl_cons, List.map_cons, List.sum_cons]
    obtain ⟨h1, h2, h3⟩ := ih (frontStep n acc b)
    refine ⟨?_, ?_, ?_⟩
    · rw [h1]; simp only [frontStep]; omega
    · rw [h2]; simp only [frontStep]; omega
    · rw [h3]; simp only [frontStep]; omega

/-- A record with zero execution-layer transactions but a nonzero
cross-layer call count and nonzero gas. -/
def zeroTxRecord : BlockData := ⟨100, 0, 0, 0, 1, 7⟩

/-- C4 counterexample: the degraded in-memory summary is not the same fold
as the primary `/api/stats` aggregate.  On a single held record with zero
execution-layer transactions, one cross-layer call and gas 7, the frontend
fallback counts the call and the gas while the primary fold excludes the
record entirely — the fallback reduce has no `hyperEVMTxns > 0` filter. -/
theorem degraded_fallback_differs_from_primary :
    (totalStatsFallback [zeroTxRecord]).totalCrossLayerCalls = 1 ∧
    (aggregate [[toBlock zeroTxRecord]]).totalCrossLayerCalls = 0 ∧
    (totalStatsFallback [zeroTxRecord]).totalGasUsed = 7 ∧
    (aggregate [[toBlock zeroTxRecord]]).totalGasUsed = 0 ∧
    (totalStatsFallback [zeroTxRecord]).totalCrossLayerCalls ≠
      (aggregate [[toBlock zeroTxRecord]]).totalCrossLayerCalls := by
  decide

/-- C4 (amended): the degraded in-memory summary sums `hyperEVMTxns`,
`crossLayerCalls` and `gasUsed` over all held records with no filter on
zero-transaction records; it coincides with the primary stats fold on the
shared fields exactly when every held record has a strictly positive
`hyperEVMTxns`. -/
theorem degradedStats_amended (blocks : List BlockData) :
    ((totalStatsFallback blocks).totalTransactions =
      (blocks.map fun b => b.hyperEVMTxns).sum) ∧
    ((totalStatsFallback blocks).totalCrossLayerCalls =
      (blocks.map fun b => b.crossLayerCalls).sum) ∧
    ((totalStatsFallback blocks).totalGasUsed =
      (blocks.map fun b => b.gasUsed).sum) ∧
    ((∀ b ∈ blocks, 0 < b.hyperEVMTxns) →
      ((totalStatsFallback blocks).totalTransactions =
        (aggregate [blocks.map toBlock]).totalTransactions ∧
      (totalStatsFallback blocks).totalCrossLayerCalls =
        (aggregate [blocks.map toBlock]).totalCrossLayerCalls ∧
      (totalStatsFallback blocks).totalGasUsed =
        (aggregate [blocks.map toBlock]).totalGasUsed)) := by
  obtain ⟨h1, h2, h3⟩ := foldl_frontStep_eq blocks (blocks.length : Int) ⟨0, 0, 0, 0, 0, 0⟩
  have f1 : (totalStatsFallback blocks).totalTransactions =
      (blocks.map fun b => b.hyperEVMTxns).sum := by
    rw [totalStatsFallback, h1]; simp
  have f2 : (totalStatsFallback blocks).totalCrossLayerCalls =
      (blocks.map fun b => b.crossLayerCalls).sum := by
    rw [totalStatsFallback, h2]; simp
  have f3 : (totalStatsFallback blocks).totalGasUsed =
      (blocks.map fun b => b.gasUsed).sum := by
    rw [totalStatsFallback, h3]; simp
  refine ⟨f1, f2, f3, ?_⟩
  intro hpos
  have hfil : (blocks.map toBlock).filter (fun b => 0 < b.hyperEVMTxns.getD 0) =
      blocks.map toBlock := by
    rw [List.filter_eq_self]
    intro a ha
    rcases List.mem_map.mp ha with ⟨b, hb, rfl⟩
    simpa [toBlock] using hpos b hb
  have hflat : ([blocks.map toBlock] : List (List Block)).flatten = blocks.map toBlock := by
    simp
  refine ⟨?_, ?_, ?_⟩
  · rw [f1, aggregate, hflat, foldl_aggStep_eq]
    simp only [hfil, List.map_map, zero_add]
    rfl
  · rw [f2, aggregate, hflat, foldl_aggStep_eq]
    simp only [hfil, List.map_map, zero_add]
    rfl
  · rw [f3, aggregate, hflat, foldl_aggStep_eq]
    simp only [hfil, List.map_map, zero_add]
    rfl

/-- A record with positive execution-layer transaction count. -/
def activeRecord : BlockData := ⟨200, 5, 2, 4, 1, 30⟩

/-- Concrete instance of the amended C4 theorem: on a record set whose
records all have positive transaction counts, the fallback and the
primary fold agree on `totalTransactions`. -/
theorem degradedStats_amended_witness :
    (∀ b ∈ [activeRecord], 0 < b.hyperEVMTxns) ∧
    (totalStatsFallback [activeRecord]).totalTransactions =
      (aggregate [[activeRecord].map toBlock]).totalTransactions :=
  ⟨by decide, ((degradedStats_amended [activeRecord]).2.2.2 (by decide)).1⟩

/-- C7: under oracle failure `getHypePrice` returns exactly the statically
configured fallback price and never raises: every failing invocation of
any failure kind yields precisely `FALLBACK_HYPE_PRICE`, and a whole run
of failing invocations yields the constant fallback sequence. -/
theorem getHypePrice_fallback_exact :
    (∀ e : OracleErr, getHypePrice (Except.error e) = FALLBACK_HYPE_PRICE) ∧
    (∀ errs : List OracleErr,
      errs.map (fun e => getHypePrice (Except.error e)) =
        List.replicate errs.length FALLBACK_HYPE_PRICE) := by
  refine ⟨fun e => rfl, fun errs => ?_⟩
  induction errs with
  | nil => rfl
  | cons e t ih =>
    rw [List.map_cons, ih, List.length_cons, List.replicate_succ]
    rfl

/-- C8: the price-history window invariant.  Starting from a history of at
most 30 samples, appending keeps the length at most 30; below the bound
the new sample is appended at the end with nothing dropped, and at the
bound exactly the oldest (front) sample is dropped. -/
theorem appendSample_window (prev : List PriceSample) (s : PriceSample)
    (h : prev.length ≤ 30) :
    (appendSample prev s).length ≤ 30 ∧
    (prev.length < 30 → appendSample prev s = prev ++ [s]) ∧
    (prev.length = 30 → appendSample prev s = prev.drop 1 ++ [s]) := by
  refine ⟨?_, ?_, ?_⟩
  · rw [appendSample, List.length_drop]
    simp only [List.length_append, List.length_singleton]
    omega
  · intro hlt
    rw [appendSample]
    have hz : (prev ++ [s]).length - 30 = 0 := by
      simp only [List.length_append, List.length_singleton]
      omega
    rw [hz, List.drop_zero]
  · intro heq
    rw [appendSample]
    have ho : (prev ++ [s]).length - 30 = 1 := by
      simp only [List.length_append, List.length_singleton]
      omega
    rw [ho, List.drop_append_of_le_length (by omega)]

/-- Sample price points for instantiating the C8 theorem. -/
def psA : PriceSample := ⟨"12:00:01", 47⟩

/-- A second sample price point. -/
def psB : PriceSample := ⟨"12:00:06", 48⟩

/-- A third sample price point. -/
def psC : PriceSample := ⟨"12:00:11", 49⟩

/-- Concrete instance of C8: below the bound, appending a sample appends
it at the end and drops nothing. -/
theorem appendSample_window_witness :
    [psA, psB].length ≤ 30 ∧ [psA, psB].length < 30 ∧
    appendSample [psA, psB] psC = [psA, psB, psC] :=
  ⟨by decide, by decide,
    (appendSample_window [psA, psB] psC (by decide)).2.1 (by decide)⟩

/-- C10: in the live-chain fallback of the single-block lookup,
`metrics.avgGasPerTx` is a guarded division: a chain block with zero
transactions yields 0 rather than a division by zero, and with a positive
transaction count it is the floor of gas over transaction count — the
response is well-defined for every chain block. -/
theorem avgGasPerTx_guarded (cb : ChainBlock) :
    (cb.transactions.length = 0 →
      (synthesizeFallbackBlock cb).metrics.avgGasPerTx = 0) ∧
    (0 < cb.transactions.length →
      (synthesizeFallbackBlock cb).metrics.avgGasPerTx =
        cb.gasUsed / cb.transactions.length) := by
  constructor
  · intro h
    simp [synthesizeFallbackBlock, h]
  · intro h
    simp [synthesizeFallbackBlock, h]

/-- A chain block with no transactions. -/
def emptyChainBlockSample : ChainBlock := ⟨7, 1000, [], 555⟩

/-- Concrete instance of C10: a chain block with zero transactions gets
`avgGasPerTx = 0`. -/
theorem avgGasPerTx_guarded_witness :
    emptyChainBlockSample.transactions.length = 0 ∧
    (synthesizeFallbackBlock emptyChainBlockSample).metrics.avgGasPerTx = 0 :=
  ⟨rfl, (avgGasPerTx_guarded emptyChainBlockSample).1 rfl⟩

/-- A storage oracle that always fails (storage unreachable). -/
def failingStorage : Option Int → Except Unit (List (Option JVal)) :=
  fun _ => Except.error ()

/-- A chain oracle that reports every block as not found. -/
def nullChain : Option Int → Except Unit (Option ChainBlock) :=
  fun _ => Except.ok none

/-- C5 counterexample: a non-numeric block number is not rejected before
collaborator calls.  On input "abc", `parseInt` yields `NaN`, yet the
handler still issues the storage range query (with the `NaN` parameter),
and the outcome is a database-error response — there is no invalid-input
outcome anywhere in the handler. -/
theorem nonNumeric_input_reaches_storage :
    jsParseInt "abc" = none ∧
    (getBlockEndpoint "abc" failingStorage nullChain).1 =
      [CollabCall.storageRangeQuery none] ∧
    (getBlockEndpoint "abc" failingStorage nullChain).2 = LookupResponse.dbError :=
  ⟨rfl, rfl, rfl⟩

/-- C5 (amended): for every input — numeric or not — the single-block
handler's first collaborator call is the storage range query, carrying the
`parseInt` result unchanged (`NaN` when parsing fails); no rejection
happens before it. -/
theorem storage_called_for_all_inputs (input : String)
    (storage : Option Int → Except Unit (List (Option JVal)))
    (chain : Option Int → Except Unit (Option ChainBlock)) :
    (getBlockEndpoint input storage chain).1.head? =
      some (CollabCall.storageRangeQuery (jsParseInt input)) := by
  cases hs : storage (jsParseInt input) with
  | error e => simp [getBlockEndpoint, hs]
  | ok rows =>
    cases rows with
    | nil => simp [getBlockEndpoint, hs]
    | cons r rs =>
      cases hf : (parseBlockData r).find? (fun b => blockNumberMatches b (jsParseInt input)) with
      | some b => simp [getBlockEndpoint, hs, hf]
      | none =>
        cases hc : chain (jsParseInt input) with
        | error e => simp [getBlockEndpoint, hs, hf, hc]
        | ok ob => cases ob <;> simp [getBlockEndpoint, hs, hf, hc]

end HL
